import Mathlib

/-!
# Verification of the torgap-sig record codec and key-protection core

Shallow embedding of the two structural modules of the repository:

* `src/src/types.rs` — fixed-array records `SecretKey`, `PublicKey`,
  `Signature` with `from_bytes` / `to_bytes` codecs built on
  `Cursor::read_exact`, the BLAKE2b checksum engine, and the
  `xor_keynum` keystream transform;
* `src/src/lib.rs` — the Vec-based records `SeckeyStruct`,
  `PubkeyStruct`, `SigStruct`, the key-pair assembler `gen_keystruct`,
  the little-endian `usize` codecs, and the zeroizing `xor_keynum`.

Bytes are modelled as `Nat` (each value below 256 in practice; XOR is
`Nat.xor` which agrees with byte XOR), byte buffers as `List Nat`.
Fallible Rust operations (`read_exact`, slice indexing, `copy_from_slice`)
return `Option`, with `none` standing for the error / panic path.
External cryptographic primitives (BLAKE2b / libsodium generichash, the
Ed25519 key-pair generator, the CSPRNG) are collaborators outside the
repository; they enter the model as explicit parameters.
-/

namespace Torgap

/-- A byte buffer: a list of byte values. -/
abbrev Bytes := List Nat

/-! ## Constants (types.rs lines 9-36, lib.rs lines 21-30) -/

def KEYNUMBYTES : Nat := 8
def TWOBYTES : Nat := 2
def CHK_BYTES : Nat := 32
def KDF_SALTBYTES : Nat := 32
def PUBLICKEYBYTES : Nat := 32
def SECRETKEYBYTES : Nat := 64
def SIGNATUREBYTES : Nat := 64

/-- `SIGALG = *b"Ed"` — ASCII bytes of "Ed". -/
def SIGALG : Bytes := [69, 100]
/-- `KDFALG = *b"Sc"` — ASCII bytes of "Sc". -/
def KDFALG : Bytes := [83, 99]
/-- `CHKALG = *b"B2"` — ASCII bytes of "B2". -/
def CHKALG : Bytes := [66, 50]

/-! ## types.rs data model -/

/-- types.rs `KeynumSK`: the encrypted-at-rest tail of a secret key record. -/
structure KeynumSK where
  keynum : Bytes
  sk : Bytes
  chk : Bytes
deriving Repr, DecidableEq

/-- types.rs `SecretKey` (158-byte record). -/
structure SecretKey where
  sig_alg : Bytes
  kdf_alg : Bytes
  chk_alg : Bytes
  kdf_salt : Bytes
  kdf_opslimit_le : Bytes
  kdf_memlimit_le : Bytes
  keynum_sk : KeynumSK
deriving Repr, DecidableEq

/-- types.rs `KeynumPK`. -/
structure KeynumPK where
  keynum : Bytes
  pk : Bytes
deriving Repr, DecidableEq

/-- types.rs `PublicKey` (42-byte record). -/
structure PublicKey where
  sig_alg : Bytes
  keynum_pk : KeynumPK
deriving Repr, DecidableEq

/-- types.rs `Signature` (74-byte record). -/
structure Signature where
  sig_alg : Bytes
  keynum : Bytes
  sig : Bytes
deriving Repr, DecidableEq

/-! ## Cursor reads

`std::io::Cursor` over a byte slice, with a position.  `read_exact`
fails (`UnexpectedEof`) iff fewer than the requested number of bytes
remain; on success it yields those bytes and the advanced position.
Plain `read` never fails: it copies `min (requested) (remaining)` bytes
into the (pre-zeroed) destination and leaves the destination's tail
untouched. -/

/-- `Cursor::read_exact` at position `pos` for `n` bytes. -/
def readExact (buf : Bytes) (pos n : Nat) : Option (Bytes × Nat) :=
  if pos + n ≤ buf.length then some ((buf.drop pos).take n, pos + n) else none

/-- `Cursor::read` at position `pos` into destination `dest`:
copies as many bytes as remain (up to `dest.length`), keeps the
rest of `dest`, and advances the position by the count copied. -/
def cursorRead (buf : Bytes) (pos : Nat) (dest : Bytes) : Bytes × Nat :=
  let k := min dest.length (buf.length - pos)
  ((buf.drop pos).take k ++ dest.drop k, pos + k)

/-- Rust slice `buf[lo..]`: panics (`none`) when `lo > buf.len()`. -/
def rustSliceFrom (buf : Bytes) (lo : Nat) : Option Bytes :=
  if lo ≤ buf.length then some (buf.drop lo) else none

/-- Rust slice `buf[lo..hi]`: panics (`none`) when out of range. -/
def rustSlice (buf : Bytes) (lo hi : Nat) : Option Bytes :=
  if lo ≤ hi ∧ hi ≤ buf.length then some ((buf.drop lo).take (hi - lo)) else none

/-! ## types.rs codecs -/

/-- types.rs `PublicKey::from_bytes`: three `read_exact` calls
(2-byte `sig_alg`, 8-byte `keynum`, 32-byte `pk`); any short read
propagates as the truncated-input error (`none`). -/
def PublicKey.from_bytes (buf : Bytes) : Option PublicKey :=
  match readExact buf 0 TWOBYTES with
  | none => none
  | some (sig_alg, p1) =>
    match readExact buf p1 KEYNUMBYTES with
    | none => none
    | some (keynum, p2) =>
      match readExact buf p2 PUBLICKEYBYTES with
      | none => none
      | some (pk, _) => some { sig_alg := sig_alg, keynum_pk := { keynum := keynum, pk := pk } }

/-- types.rs `PublicKey::to_bytes`: concatenation of the fields in order. -/
def PublicKey.to_bytes (p : PublicKey) : Bytes :=
  p.sig_alg ++ (p.keynum_pk.keynum ++ p.keynum_pk.pk)

/-- types.rs `SecretKey::from_bytes`: nine `read_exact` calls in field order. -/
def SecretKey.from_bytes (buf : Bytes) : Option SecretKey :=
  match readExact buf 0 TWOBYTES with
  | none => none
  | some (sig_alg, p1) =>
    match readExact buf p1 TWOBYTES with
    | none => none
    | some (kdf_alg, p2) =>
      match readExact buf p2 TWOBYTES with
      | none => none
      | some (chk_alg, p3) =>
        match readExact buf p3 KDF_SALTBYTES with
        | none => none
        | some (kdf_salt, p4) =>
          match readExact buf p4 KEYNUMBYTES with
          | none => none
          | some (ops_limit, p5) =>
            match readExact buf p5 KEYNUMBYTES with
            | none => none
            | some (mem_limit, p6) =>
              match readExact buf p6 KEYNUMBYTES with
              | none => none
              | some (keynum, p7) =>
                match readExact buf p7 SECRETKEYBYTES with
                | none => none
                | some (sk, p8) =>
                  match readExact buf p8 CHK_BYTES with
                  | none => none
                  | some (chk, _) =>
                    some { sig_alg := sig_alg, kdf_alg := kdf_alg, chk_alg := chk_alg,
                           kdf_salt := kdf_salt, kdf_opslimit_le := ops_limit,
                           kdf_memlimit_le := mem_limit,
                           keynum_sk := { keynum := keynum, sk := sk, chk := chk } }

/-- types.rs `SecretKey::to_bytes`: concatenation of the nine fields in order. -/
def SecretKey.to_bytes (s : SecretKey) : Bytes :=
  s.sig_alg ++ (s.kdf_alg ++ (s.chk_alg ++ (s.kdf_salt ++ (s.kdf_opslimit_le ++
    (s.kdf_memlimit_le ++ (s.keynum_sk.keynum ++ (s.keynum_sk.sk ++ s.keynum_sk.chk)))))))

/-- types.rs `Signature::from_bytes`: three `read_exact` calls in field order. -/
def Signature.from_bytes (buf : Bytes) : Option Signature :=
  match readExact buf 0 TWOBYTES with
  | none => none
  | some (sig_alg, p1) =>
    match readExact buf p1 KEYNUMBYTES with
    | none => none
    | some (keynum, p2) =>
      match readExact buf p2 SIGNATUREBYTES with
      | none => none
      | some (sig, _) => some { sig_alg := sig_alg, keynum := keynum, sig := sig }

/-- types.rs `Signature::to_bytes`: concatenation of the fields in order. -/
def Signature.to_bytes (s : Signature) : Bytes :=
  s.sig_alg ++ (s.keynum ++ s.sig)

/-! ## Keystream XOR transform

Both files implement the same three-pass XOR.  Each pass is
`field.iter_mut().zip(stream_tail.iter()).map(|(b, s)| *b ^= *s).count()`:
it XORs the first `min (field.length) (stream_tail.length)` bytes of the
field, leaves the field's remaining suffix unchanged, and returns the
number of pairs visited. -/

/-- One `zip`/XOR pass over a field with (a tail of) the keystream. -/
def xorWith (field stream : Bytes) : Bytes :=
  List.zipWith (· ^^^ ·) field stream ++ field.drop stream.length

/-- types.rs `SecretKey::xor_keynum`.  The slice expressions
`stream[b8..]` and `stream[b8 + b64..]` are Rust index operations that
panic (`none`) when the start exceeds the stream length. -/
def SecretKey.xor_keynum (s : SecretKey) (stream : Bytes) : Option SecretKey := do
  let b8 := min s.keynum_sk.keynum.length stream.length
  let keynum := xorWith s.keynum_sk.keynum stream
  let s1 ← rustSliceFrom stream b8
  let b64 := min s.keynum_sk.sk.length s1.length
  let sk := xorWith s.keynum_sk.sk s1
  let s2 ← rustSliceFrom stream (b8 + b64)
  let chk := xorWith s.keynum_sk.chk s2
  some { s with keynum_sk := { keynum := keynum, sk := sk, chk := chk } }

/-! ## Checksum engine (types.rs, BLAKE2b)

The BLAKE2b compression itself is an external collaborator (rust-crypto's
`Blake2b`); the spec fixes only its interface: a digest function taking a
requested output length and the accumulated input.  The streaming state
is modelled as the requested output length plus the bytes fed so far, and
the abstract digest family `H : Nat → Bytes → Bytes` is applied at
finalization. -/

/-- Streaming BLAKE2b state: requested digest length and data fed so far. -/
structure Blake2bState where
  outLen : Nat
  data : Bytes
deriving Repr, DecidableEq

/-- `Blake2b::new(n)`. -/
def Blake2b.new (n : Nat) : Blake2bState := { outLen := n, data := [] }

/-- `Blake2b::input`. -/
def Blake2bState.update (st : Blake2bState) (d : Bytes) : Blake2bState :=
  { st with data := st.data ++ d }

/-- `Blake2b::result`, via the abstract digest family `H`. -/
def Blake2bState.digest (H : Nat → Bytes → Bytes) (st : Blake2bState) : Bytes :=
  H st.outLen st.data

/-- types.rs `SecretKey::read_checksum`: feed `sig_alg`, `keynum`, `sk`
in order into BLAKE2b configured for a 32-byte digest and return the
digest. -/
def SecretKey.read_checksum (H : Nat → Bytes → Bytes) (s : SecretKey) : Bytes :=
  let state := Blake2b.new CHK_BYTES
  let state := state.update s.sig_alg
  let state := state.update s.keynum_sk.keynum
  let state := state.update s.keynum_sk.sk
  state.digest H

/-- Rust `dst.copy_from_slice(src)`: panics (`none`) unless the lengths
match; on success the destination's new contents are `src`. -/
def copy_from_slice (dst src : Bytes) : Option Bytes :=
  if dst.length = src.length then some src else none

/-- types.rs `SecretKey::write_checksum`: store the recomputed checksum
into `chk` (a 32-byte array, so `copy_from_slice` requires a 32-byte
digest). -/
def SecretKey.write_checksum (H : Nat → Bytes → Bytes) (s : SecretKey) : Option SecretKey := do
  let h := s.read_checksum H
  let chk ← copy_from_slice s.keynum_sk.chk h
  some { s with keynum_sk := { s.keynum_sk with chk := chk } }

end Torgap

namespace Torgap.Rsign

open Torgap

/-! ## lib.rs data model (Vec-based records)

`lib.rs` keeps every field as a `Vec<u8>` (so lengths live in the values,
not the types) and the two KDF cost parameters as sodiumoxide's
`OpsLimit` / `MemLimit` wrappers around `usize`. -/

/-- sodiumoxide `OPSLIMIT_SENSITIVE` (scrypt preset), an external-library
constant. -/
def OPSLIMIT_SENSITIVE : Nat := 33554432

/-- sodiumoxide `MEMLIMIT_SENSITIVE` (scrypt preset), an external-library
constant. -/
def MEMLIMIT_SENSITIVE : Nat := 1073741824

/-- sodiumoxide `SALTBYTES` for the scrypt KDF. -/
def SALTBYTES : Nat := 32

/-- lib.rs `KeynumSK` (Vec-valued fields). -/
structure KeynumSK where
  keynum : Bytes
  sk : Bytes
  chk : Bytes
deriving Repr, DecidableEq

/-- lib.rs `SeckeyStruct`; the cost limits are `usize` values inside
`OpsLimit` / `MemLimit` wrappers. -/
structure SeckeyStruct where
  sig_alg : Bytes
  kdf_alg : Bytes
  chk_alg : Bytes
  kdf_salt : Bytes
  kdf_opslimit_le : Nat
  kdf_memlimit_le : Nat
  keynum_sk : KeynumSK
deriving Repr, DecidableEq

/-- lib.rs `KeynumPK`. -/
structure KeynumPK where
  keynum : Bytes
  pk : Bytes
deriving Repr, DecidableEq

/-- lib.rs `PubkeyStruct`. -/
structure PubkeyStruct where
  sig_alg : Bytes
  keynum_pk : KeynumPK
deriving Repr, DecidableEq

/-- lib.rs `SigStruct`. -/
structure SigStruct where
  sig_alg : Bytes
  keynum : Bytes
  sig : Bytes
deriving Repr, DecidableEq

/-- lib.rs `store_usize_le`: little-endian bytes of a `usize`,
byte 0 least significant (each byte extracted by shift-and-mask). -/
def store_usize_le (x : Nat) : Bytes :=
  [x &&& 0xff, (x >>> 8) &&& 0xff, (x >>> 16) &&& 0xff, (x >>> 24) &&& 0xff,
   (x >>> 32) &&& 0xff, (x >>> 40) &&& 0xff, (x >>> 48) &&& 0xff, (x >>> 56) &&& 0xff]

/-- lib.rs `load_usize_le`: rebuild a `usize` from bytes 0..7 of the
slice (indexing panics — `none` — when fewer than 8 bytes are present). -/
def load_usize_le (x : Bytes) : Option Nat :=
  match x with
  | b0 :: b1 :: b2 :: b3 :: b4 :: b5 :: b6 :: b7 :: _ =>
      some (b0 ||| (b1 <<< 8) ||| (b2 <<< 16) ||| (b3 <<< 24) |||
            (b4 <<< 32) ||| (b5 <<< 40) ||| (b6 <<< 48) ||| (b7 <<< 56))
  | _ => none

/-- lib.rs `SeckeyStruct::from`: direct slice indexing of the input
buffer at fixed offsets; a too-short buffer makes a slice expression
panic (`none`), it is not reported as an error value. -/
def SeckeyStruct.from (bytes_buf : Bytes) : Option SeckeyStruct := do
  let sig_alg ← rustSlice bytes_buf 0 2
  let kdf_alg ← rustSlice bytes_buf 2 4
  let chk_alg ← rustSlice bytes_buf 4 6
  let kdf_salt ← rustSlice bytes_buf 6 38
  let ops_bytes ← rustSlice bytes_buf 38 46
  let ops ← load_usize_le ops_bytes
  let mem_bytes ← rustSlice bytes_buf 46 54
  let mem ← load_usize_le mem_bytes
  let keynum ← rustSlice bytes_buf 54 62
  let sk ← rustSlice bytes_buf 62 126
  let chk ← rustSliceFrom bytes_buf 126
  some { sig_alg := sig_alg, kdf_alg := kdf_alg, chk_alg := chk_alg,
         kdf_salt := kdf_salt, kdf_opslimit_le := ops, kdf_memlimit_le := mem,
         keynum_sk := { keynum := keynum, sk := sk, chk := chk } }

/-- lib.rs `SeckeyStruct::bytes`: concatenation of the fields in order,
with the two cost limits serialized through `store_usize_le`. -/
def SeckeyStruct.bytes (s : SeckeyStruct) : Bytes :=
  s.sig_alg ++ (s.kdf_alg ++ (s.chk_alg ++ (s.kdf_salt ++
    (store_usize_le s.kdf_opslimit_le ++ (store_usize_le s.kdf_memlimit_le ++
      (s.keynum_sk.keynum ++ (s.keynum_sk.sk ++ s.keynum_sk.chk)))))))

/-- lib.rs `PubkeyStruct::from`: three plain `Cursor::read` calls into
pre-zeroed arrays.  `Cursor::read` never fails, so the `?` operator
never fires and the result is always `some`; a short buffer simply
leaves the untouched tail of the destination arrays at zero. -/
def PubkeyStruct.from (buf : Bytes) : Option PubkeyStruct :=
  let r1 := cursorRead buf 0 (List.replicate TWOBYTES 0)
  let r2 := cursorRead buf r1.2 (List.replicate KEYNUMBYTES 0)
  let r3 := cursorRead buf r2.2 (List.replicate PUBLICKEYBYTES 0)
  some { sig_alg := r1.1, keynum_pk := { keynum := r2.1, pk := r3.1 } }

/-- lib.rs `PubkeyStruct::bytes`. -/
def PubkeyStruct.bytes (p : PubkeyStruct) : Bytes :=
  p.sig_alg ++ (p.keynum_pk.keynum ++ p.keynum_pk.pk)

/-- lib.rs `SigStruct::from`: slice indexing at fixed offsets (panics —
`none` — on a too-short buffer). -/
def SigStruct.from (bytes_buf : Bytes) : Option SigStruct := do
  let sig_alg ← rustSlice bytes_buf 0 2
  let keynum ← rustSlice bytes_buf 2 10
  let sig ← rustSlice bytes_buf 10 74
  some { sig_alg := sig_alg, keynum := keynum, sig := sig }

/-- lib.rs `SigStruct::bytes`. -/
def SigStruct.bytes (s : SigStruct) : Bytes :=
  s.sig_alg ++ (s.keynum ++ s.sig)

/-! ## Checksum engine (lib.rs, libsodium generichash)

Modelled from the spec: the `generichash` module is declared in lib.rs
(`pub mod generichash`) but its file is not among the structural sources;
the spec fixes its interface (§6: `hash(data) -> digest[32]`, streaming
init/update/finalize acceptable, BLAKE2b with a fixed 32-byte output).
The streaming state is the accumulated input; finalization applies the
same abstract BLAKE2b digest family `H` at output length 32. -/

/-- libsodium `crypto_generichash_BYTES` (default digest length). -/
def GENERICHASH_BYTES : Nat := 32

/-- `generichash::init`: empty accumulated input. -/
def generichashInit : Bytes := []

/-- `generichash::update`: append the chunk to the accumulated input. -/
def generichashUpdate (state d : Bytes) : Bytes := state ++ d

/-- `generichash::finalize`: the 32-byte digest of the accumulated input. -/
def generichashFinalize (H : Nat → Bytes → Bytes) (state : Bytes) : Bytes :=
  H GENERICHASH_BYTES state

/-- lib.rs `SeckeyStruct::checksum`: feed `sig_alg`, `keynum`, `sk` in
order into generichash and store the digest into `chk` (plain `Vec`
assignment — no length precondition). -/
def SeckeyStruct.checksum (H : Nat → Bytes → Bytes) (s : SeckeyStruct) : SeckeyStruct :=
  let state := generichashInit
  let state := generichashUpdate state s.sig_alg
  let state := generichashUpdate state s.keynum_sk.keynum
  let state := generichashUpdate state s.keynum_sk.sk
  let h := generichashFinalize H state
  { s with keynum_sk := { s.keynum_sk with chk := h } }

/-- sodiumoxide `utils::memzero`: overwrite every byte of the buffer
with zero. -/
def memzero (b : Bytes) : Bytes := List.replicate b.length 0

/-- lib.rs `SeckeyStruct::xor_keynum`: same three XOR passes as the
types.rs version, but the function owns the keystream `Vec` and
`memzero`s it before returning (the buffer is dropped at function exit).
The second component of the result is the keystream buffer's final
contents at the point its storage is released. -/
def SeckeyStruct.xor_keynum (s : SeckeyStruct) (stream : Bytes) :
    Option (SeckeyStruct × Bytes) := do
  let b8 := min s.keynum_sk.keynum.length stream.length
  let keynum := xorWith s.keynum_sk.keynum stream
  let s1 ← rustSliceFrom stream b8
  let b64 := min s.keynum_sk.sk.length s1.length
  let sk := xorWith s.keynum_sk.sk s1
  let s2 ← rustSliceFrom stream (b8 + b64)
  let chk := xorWith s.keynum_sk.chk s2
  some ({ s with keynum_sk := { keynum := keynum, sk := sk, chk := chk } }, memzero stream)

/-- lib.rs `gen_keystruct`, made deterministic by passing the outputs of
the external primitives as arguments: `pk`/`sk` are the halves produced
by `gen_keypair()`, `keynum_vec` the 8 bytes drawn by
`randombytes(KEYNUMBYTES)`, `salt` the 32 bytes drawn by
`randombytes(SALTBYTES)`.  `copy_from_slice` panics (`none`) on a length
mismatch.  The secret record's `chk` is created as
`Vec::with_capacity(BYTES)` — an empty vector. -/
def gen_keystruct (pk sk keynum_vec salt : Bytes) :
    Option (PubkeyStruct × SeckeyStruct) := do
  let keynum ← copy_from_slice (List.replicate KEYNUMBYTES 0) keynum_vec
  let pk_vec ← copy_from_slice (List.replicate PUBLICKEYBYTES 0) pk
  let sk_vec := sk
  let sig_alg ← copy_from_slice (List.replicate TWOBYTES 0) SIGALG
  let p_struct : PubkeyStruct :=
    { sig_alg := sig_alg, keynum_pk := { keynum := keynum, pk := pk_vec } }
  let s_struct : SeckeyStruct :=
    { sig_alg := SIGALG, kdf_alg := KDFALG, chk_alg := CHKALG,
      kdf_salt := salt, kdf_opslimit_le := OPSLIMIT_SENSITIVE,
      kdf_memlimit_le := MEMLIMIT_SENSITIVE,
      keynum_sk := { keynum := keynum_vec, sk := sk_vec, chk := [] } }
  some (p_struct, s_struct)

end Torgap.Rsign

namespace Torgap

/-! ## Concrete example records (used to instantiate the theorems) -/

/-- A well-formed example `PublicKey`. -/
def pkEx : PublicKey :=
  { sig_alg := SIGALG,
    keynum_pk := { keynum := List.replicate 8 3, pk := List.replicate 32 4 } }

/-- A well-formed example `SecretKey`. -/
def skEx : SecretKey :=
  { sig_alg := SIGALG, kdf_alg := KDFALG, chk_alg := CHKALG,
    kdf_salt := List.replicate 32 5, kdf_opslimit_le := List.replicate 8 6,
    kdf_memlimit_le := List.replicate 8 7,
    keynum_sk := { keynum := List.replicate 8 8, sk := List.replicate 64 9,
                   chk := List.replicate 32 10 } }

/-- A well-formed example `Signature`. -/
def sigEx : Signature :=
  { sig_alg := SIGALG, keynum := List.replicate 8 3, sig := List.replicate 64 4 }

/-- An example keystream of the correct length (104 bytes). -/
def kEx104 : Bytes := List.replicate 104 170

/-- An example digest family standing in for BLAKE2b in witnesses. -/
def hashEx (n : Nat) (d : Bytes) : Bytes := List.replicate n (d.length % 256)

/-- The public record `gen_keystruct` assembles from the example entropy
`pk = 32 x 1`, `keynum = 8 x 3`. -/
def genPEx : Rsign.PubkeyStruct :=
  { sig_alg := SIGALG,
    keynum_pk := { keynum := List.replicate 8 3, pk := List.replicate 32 1 } }

/-- The secret record `gen_keystruct` assembles from the example entropy
`sk = 64 x 2`, `keynum = 8 x 3`, `salt = 32 x 4`. -/
def genSEx : Rsign.SeckeyStruct :=
  { sig_alg := SIGALG, kdf_alg := KDFALG, chk_alg := CHKALG,
    kdf_salt := List.replicate 32 4, kdf_opslimit_le := Rsign.OPSLIMIT_SENSITIVE,
    kdf_memlimit_le := Rsign.MEMLIMIT_SENSITIVE,
    keynum_sk := { keynum := List.replicate 8 3, sk := List.replicate 64 2, chk := [] } }

/-- A well-formed example lib.rs `SeckeyStruct` (checksum present). -/
def rsEx : Rsign.SeckeyStruct :=
  { sig_alg := SIGALG, kdf_alg := KDFALG, chk_alg := CHKALG,
    kdf_salt := List.replicate 32 5, kdf_opslimit_le := 7, kdf_memlimit_le := 9,
    keynum_sk := { keynum := List.replicate 8 1, sk := List.replicate 64 2,
                   chk := List.replicate 32 3 } }

/-- Example short keystream (5 bytes) for the any-length theorem. -/
def kEx5 : Bytes := List.replicate 5 9

/-! ## Supporting lemmas -/

theorem xorWith_nil (f : Bytes) : xorWith f [] = f := by
  simp [xorWith]

theorem xorWith_cons (a b : Nat) (f st : Bytes) :
    xorWith (a :: f) (b :: st) = (a ^^^ b) :: xorWith f st := by
  simp [xorWith]

theorem xorWith_length (f st : Bytes) : (xorWith f st).length = f.length := by
  simp [xorWith]
  omega

theorem xorWith_xorWith (f st : Bytes) : xorWith (xorWith f st) st = f := by
  induction f generalizing st with
  | nil => cases st <;> simp [xorWith]
  | cons a f ih =>
    cases st with
    | nil => simp [xorWith_nil]
    | cons b st => rw [xorWith_cons, xorWith_cons, ih, Nat.xor_cancel_right]

theorem zipWith_take_right (f : Nat → Nat → Nat) (l r : Bytes) :
    List.zipWith f l (r.take l.length) = List.zipWith f l r := by
  induction l generalizing r with
  | nil => simp
  | cons a l ih =>
    cases r with
    | nil => simp
    | cons b r => simp [ih]

theorem xorWith_of_le (f st : Bytes) (h : f.length ≤ st.length) :
    xorWith f st = List.zipWith (· ^^^ ·) f (st.take f.length) := by
  rw [xorWith, List.drop_eq_nil_of_le h, List.append_nil, zipWith_take_right]

theorem drop_min_self (st : Bytes) (n : Nat) :
    st.drop (min n st.length) = st.drop n := by
  rcases le_total n st.length with h | h
  · rw [min_eq_left h]
  · rw [min_eq_right h, List.drop_eq_nil_of_le le_rfl, List.drop_eq_nil_of_le h]

theorem drop_seventytwo (st : Bytes) :
    st.drop (min 8 st.length + min 64 (st.length - min 8 st.length)) = st.drop 72 := by
  rcases le_total 72 st.length with h | h
  · have e : min 8 st.length + min 64 (st.length - min 8 st.length) = 72 := by omega
    rw [e]
  · rw [List.drop_eq_nil_of_le (by omega), List.drop_eq_nil_of_le h]

/-- Normal form of the types.rs `xor_keynum` on a well-formed record: the
three stream segments start at offsets 0, 8, 72, and the operation never
hits a panicking slice. -/
theorem SecretKey.xor_keynum_eq (s : SecretKey) (stream : Bytes)
    (h8 : s.keynum_sk.keynum.length = 8) (h64 : s.keynum_sk.sk.length = 64) :
    s.xor_keynum stream =
      some { s with keynum_sk :=
        { keynum := xorWith s.keynum_sk.keynum stream,
          sk := xorWith s.keynum_sk.sk (stream.drop 8),
          chk := xorWith s.keynum_sk.chk (stream.drop 72) } } := by
  unfold SecretKey.xor_keynum
  simp only [Option.bind_eq_bind, rustSliceFrom, h8, h64]
  rw [if_pos (by omega)]
  simp only [Option.some_bind, List.length_drop]
  rw [if_pos (by omega)]
  simp only [Option.some_bind, drop_min_self, drop_seventytwo]

/-- Normal form of the lib.rs `xor_keynum`: it never panics, XORs the
same three segments, and hands back the zeroized keystream buffer. -/
theorem Rsign.SeckeyStruct.xor_keynum_norm (s : Rsign.SeckeyStruct) (stream : Bytes) :
    s.xor_keynum stream =
      some ({ s with keynum_sk :=
        { keynum := xorWith s.keynum_sk.keynum stream,
          sk := xorWith s.keynum_sk.sk
            (stream.drop (min s.keynum_sk.keynum.length stream.length)),
          chk := xorWith s.keynum_sk.chk
            (stream.drop (min s.keynum_sk.keynum.length stream.length +
              min s.keynum_sk.sk.length
                (stream.length - min s.keynum_sk.keynum.length stream.length))) } },
        Rsign.memzero stream) := by
  unfold Rsign.SeckeyStruct.xor_keynum
  simp only [Option.bind_eq_bind, rustSliceFrom]
  rw [if_pos (by omega)]
  simp only [Option.some_bind, List.length_drop]
  rw [if_pos (by omega)]
  simp only [Option.some_bind]

/-- A `read_exact` on a cursor position whose remaining bytes start with
the requested field succeeds with exactly that field. -/
theorem readExact_pref {buf l r : Bytes} {pos n : Nat}
    (h : buf.drop pos = l ++ r) (hl : l.length = n) (hn : 0 < n) :
    readExact buf pos n = some (l, pos + n) := by
  have hlen : buf.length - pos = n + r.length := by
    have h' := congrArg List.length h
    simp only [List.length_drop, List.length_append, hl] at h'
    exact h'
  have hle : pos + n ≤ buf.length := by omega
  rw [readExact, if_pos hle, h, ← hl, List.take_left]

/-- A successful `read_exact` implies the buffer held enough bytes and
pins the advanced position. -/
theorem readExact_some_inv {buf : Bytes} {pos n : Nat} {out : Bytes × Nat}
    (h : readExact buf pos n = some out) :
    pos + n ≤ buf.length ∧ out.2 = pos + n := by
  rw [readExact] at h
  split at h
  · cases h
    exact ⟨by assumption, rfl⟩
  · cases h

/-- Advancing past a field whose bytes head the remaining buffer. -/
theorem drop_step {buf f rest : Bytes} {pos n : Nat}
    (h : buf.drop pos = f ++ rest) (hf : f.length = n) :
    buf.drop (pos + n) = rest := by
  have e : buf.drop (pos + n) = (buf.drop pos).drop n := by
    rw [List.drop_drop, Nat.add_comm]
  rw [e, h, ← hf, List.drop_left]

/-- Decode-of-encode for the types.rs `PublicKey` codec. -/
theorem pub_roundtrip (p : PublicKey) (h1 : p.sig_alg.length = 2)
    (h2 : p.keynum_pk.keynum.length = 8) (h3 : p.keynum_pk.pk.length = 32) :
    PublicKey.from_bytes p.to_bytes = some p := by
  have e0 : p.to_bytes.drop 0 = p.sig_alg ++ (p.keynum_pk.keynum ++ p.keynum_pk.pk) := by
    rw [List.drop_zero]
    rfl
  have e2 : p.to_bytes.drop 2 = p.keynum_pk.keynum ++ p.keynum_pk.pk := drop_step e0 h1
  have e10 : p.to_bytes.drop 10 = p.keynum_pk.pk ++ [] := by
    rw [List.append_nil]
    exact drop_step e2 h2
  have r1 : readExact p.to_bytes 0 2 = some (p.sig_alg, 2) := by
    simpa using readExact_pref e0 h1 (by omega)
  have r2 : readExact p.to_bytes 2 8 = some (p.keynum_pk.keynum, 10) := by
    simpa using readExact_pref e2 h2 (by omega)
  have r3 : readExact p.to_bytes 10 32 = some (p.keynum_pk.pk, 42) := by
    simpa using readExact_pref e10 h3 (by omega)
  unfold PublicKey.from_bytes
  simp only [TWOBYTES, KEYNUMBYTES, PUBLICKEYBYTES, r1, r2, r3]

/-- Decode-of-encode for the types.rs `Signature` codec. -/
theorem sig_roundtrip (g : Signature) (h1 : g.sig_alg.length = 2)
    (h2 : g.keynum.length = 8) (h3 : g.sig.length = 64) :
    Signature.from_bytes g.to_bytes = some g := by
  have e0 : g.to_bytes.drop 0 = g.sig_alg ++ (g.keynum ++ g.sig) := by
    rw [List.drop_zero]
    rfl
  have e2 : g.to_bytes.drop 2 = g.keynum ++ g.sig := drop_step e0 h1
  have e10 : g.to_bytes.drop 10 = g.sig ++ [] := by
    rw [List.append_nil]
    exact drop_step e2 h2
  have r1 : readExact g.to_bytes 0 2 = some (g.sig_alg, 2) := by
    simpa using readExact_pref e0 h1 (by omega)
  have r2 : readExact g.to_bytes 2 8 = some (g.keynum, 10) := by
    simpa using readExact_pref e2 h2 (by omega)
  have r3 : readExact g.to_bytes 10 64 = some (g.sig, 74) := by
    simpa using readExact_pref e10 h3 (by omega)
  unfold Signature.from_bytes
  simp only [TWOBYTES, KEYNUMBYTES, SIGNATUREBYTES, r1, r2, r3]

/-- Decode-of-encode for the types.rs `SecretKey` codec. -/
theorem sec_roundtrip (s : SecretKey) (h1 : s.sig_alg.length = 2)
    (h2 : s.kdf_alg.length = 2) (h3 : s.chk_alg.length = 2)
    (h4 : s.kdf_salt.length = 32) (h5 : s.kdf_opslimit_le.length = 8)
    (h6 : s.kdf_memlimit_le.length = 8) (h7 : s.keynum_sk.keynum.length = 8)
    (h8 : s.keynum_sk.sk.length = 64) (h9 : s.keynum_sk.chk.length = 32) :
    SecretKey.from_bytes s.to_bytes = some s := by
  have e0 : s.to_bytes.drop 0 = s.sig_alg ++ (s.kdf_alg ++ (s.chk_alg ++ (s.kdf_salt ++
      (s.kdf_opslimit_le ++ (s.kdf_memlimit_le ++ (s.keynum_sk.keynum ++
        (s.keynum_sk.sk ++ s.keynum_sk.chk))))))) := by
    rw [List.drop_zero]
    rfl
  have e2 := drop_step e0 h1
  have e4 := drop_step e2 h2
  have e6 := drop_step e4 h3
  have e38 := drop_step e6 h4
  have e46 := drop_step e38 h5
  have e54 := drop_step e46 h6
  have e62 := drop_step e54 h7
  have e126 : s.to_bytes.drop 126 = s.keynum_sk.chk ++ [] := by
    rw [List.append_nil]
    exact drop_step e62 h8
  have r1 : readExact s.to_bytes 0 2 = some (s.sig_alg, 2) := by
    simpa using readExact_pref e0 h1 (by omega)
  have r2 : readExact s.to_bytes 2 2 = some (s.kdf_alg, 4) := by
    simpa using readExact_pref e2 h2 (by omega)
  have r3 : readExact s.to_bytes 4 2 = some (s.chk_alg, 6) := by
    simpa using readExact_pref e4 h3 (by omega)
  have r4 : readExact s.to_bytes 6 32 = some (s.kdf_salt, 38) := by
    simpa using readExact_pref e6 h4 (by omega)
  have r5 : readExact s.to_bytes 38 8 = some (s.kdf_opslimit_le, 46) := by
    simpa using readExact_pref e38 h5 (by omega)
  have r6 : readExact s.to_bytes 46 8 = some (s.kdf_memlimit_le, 54) := by
    simpa using readExact_pref e46 h6 (by omega)
  have r7 : readExact s.to_bytes 54 8 = some (s.keynum_sk.keynum, 62) := by
    simpa using readExact_pref e54 h7 (by omega)
  have r8 : readExact s.to_bytes 62 64 = some (s.keynum_sk.sk, 126) := by
    simpa using readExact_pref e62 h8 (by omega)
  have r9 : readExact s.to_bytes 126 32 = some (s.keynum_sk.chk, 158) := by
    simpa using readExact_pref e126 h9 (by omega)
  unfold SecretKey.from_bytes
  simp only [TWOBYTES, KDF_SALTBYTES, KEYNUMBYTES, SECRETKEYBYTES, CHK_BYTES,
    r1, r2, r3, r4, r5, r6, r7, r8, r9]

/-- `store_usize_le` always yields 8 bytes. -/
theorem store_usize_le_length (x : Nat) : (Rsign.store_usize_le x).length = 8 := rfl

/-- Inversion for `gen_keystruct`: a successful run forces the assembled
pair — the `copy_from_slice` calls pin the entropy lengths and the four
fixed algorithm/cost constants appear verbatim, with `chk` empty. -/
theorem Rsign.gen_keystruct_some {pk sk keynum_vec salt : Bytes}
    {out : Rsign.PubkeyStruct × Rsign.SeckeyStruct}
    (h : Rsign.gen_keystruct pk sk keynum_vec salt = some out) :
    out = ({ sig_alg := SIGALG, keynum_pk := { keynum := keynum_vec, pk := pk } },
           { sig_alg := SIGALG, kdf_alg := KDFALG, chk_alg := CHKALG,
             kdf_salt := salt, kdf_opslimit_le := Rsign.OPSLIMIT_SENSITIVE,
             kdf_memlimit_le := Rsign.MEMLIMIT_SENSITIVE,
             keynum_sk := { keynum := keynum_vec, sk := sk, chk := [] } }) := by
  unfold Rsign.gen_keystruct copy_from_slice at h
  simp only [Option.bind_eq_bind] at h
  split at h
  · simp only [Option.some_bind] at h
    split at h
    · simp only [Option.some_bind] at h
      split at h
      · simp only [Option.some_bind] at h
        exact (Option.some_inj.mp h).symm
      · simp at h
    · simp at h
  · simp at h

/-- A buffer shorter than 42 bytes makes the types.rs `PublicKey`
decoder fail. -/
theorem pub_from_bytes_short {buf : Bytes} (h : buf.length < 42) :
    PublicKey.from_bytes buf = none := by
  unfold PublicKey.from_bytes
  split
  · rfl
  rename_i a1 q1 h1
  split
  · rfl
  rename_i a2 q2 h2
  split
  · rfl
  rename_i a3 q3 h3
  exfalso
  obtain ⟨hb1, hq1⟩ := readExact_some_inv h1
  obtain ⟨hb2, hq2⟩ := readExact_some_inv h2
  obtain ⟨hb3, hq3⟩ := readExact_some_inv h3
  simp only [TWOBYTES, KEYNUMBYTES, PUBLICKEYBYTES] at hb1 hb2 hb3 hq1 hq2 hq3
  omega

/-- A buffer shorter than 74 bytes makes the types.rs `Signature`
decoder fail. -/
theorem sig_from_bytes_short {buf : Bytes} (h : buf.length < 74) :
    Signature.from_bytes buf = none := by
  unfold Signature.from_bytes
  split
  · rfl
  rename_i a1 q1 h1
  split
  · rfl
  rename_i a2 q2 h2
  split
  · rfl
  rename_i a3 q3 h3
  exfalso
  obtain ⟨hb1, hq1⟩ := readExact_some_inv h1
  obtain ⟨hb2, hq2⟩ := readExact_some_inv h2
  obtain ⟨hb3, hq3⟩ := readExact_some_inv h3
  simp only [TWOBYTES, KEYNUMBYTES, SIGNATUREBYTES] at hb1 hb2 hb3 hq1 hq2 hq3
  omega

/-- A buffer shorter than 158 bytes makes the types.rs `SecretKey`
decoder fail. -/
theorem sec_from_bytes_short {buf : Bytes} (h : buf.length < 158) :
    SecretKey.from_bytes buf = none := by
  unfold SecretKey.from_bytes
  split
  · rfl
  rename_i a1 q1 h1
  split
  · rfl
  rename_i a2 q2 h2
  split
  · rfl
  rename_i a3 q3 h3
  split
  · rfl
  rename_i a4 q4 h4
  split
  · rfl
  rename_i a5 q5 h5
  split
  · rfl
  rename_i a6 q6 h6
  split
  · rfl
  rename_i a7 q7 h7
  split
  · rfl
  rename_i a8 q8 h8
  split
  · rfl
  rename_i a9 q9 h9
  exfalso
  obtain ⟨hb1, hq1⟩ := readExact_some_inv h1
  obtain ⟨hb2, hq2⟩ := readExact_some_inv h2
  obtain ⟨hb3, hq3⟩ := readExact_some_inv h3
  obtain ⟨hb4, hq4⟩ := readExact_some_inv h4
  obtain ⟨hb5, hq5⟩ := readExact_some_inv h5
  obtain ⟨hb6, hq6⟩ := readExact_some_inv h6
  obtain ⟨hb7, hq7⟩ := readExact_some_inv h7
  obtain ⟨hb8, hq8⟩ := readExact_some_inv h8
  obtain ⟨hb9, hq9⟩ := readExact_some_inv h9
  simp only [TWOBYTES, KDF_SALTBYTES, KEYNUMBYTES, SECRETKEYBYTES, CHK_BYTES]
    at hb1 hb2 hb3 hb4 hb5 hb6 hb7 hb8 hb9 hq1 hq2 hq3 hq4 hq5 hq6 hq7 hq8 hq9
  omega

/-! ## Claims -/

/-- C1 (counterexample): the claim says every decoder rejects a 40-byte
buffer with a truncated-input error; the lib.rs `PubkeyStruct::from`
instead succeeds on a 40-byte buffer and returns a record whose `pk`
field is zero-padded in its last two bytes. -/
theorem C1_counterexample_pubkeystruct_zero_pads :
    Rsign.PubkeyStruct.from (List.replicate 40 1) =
      some { sig_alg := [1, 1],
             keynum_pk := { keynum := List.replicate 8 1,
                            pk := List.replicate 30 1 ++ [0, 0] } } := by
  decide

/-- C1 (amended): the three types.rs decoders (`PublicKey::from_bytes`,
`SecretKey::from_bytes`, `Signature::from_bytes`) return the
truncated-input error — and no partial record — on every buffer shorter
than the record's fixed size (42 / 158 / 74 bytes). -/
theorem C1_truncated_input_rejected (buf : Bytes) :
    (buf.length < 42 → PublicKey.from_bytes buf = none) ∧
    (buf.length < 158 → SecretKey.from_bytes buf = none) ∧
    (buf.length < 74 → Signature.from_bytes buf = none) :=
  ⟨fun h => pub_from_bytes_short h, fun h => sec_from_bytes_short h,
   fun h => sig_from_bytes_short h⟩

/-- C1 (witness): a 40-byte buffer is rejected by all three types.rs
decoders. -/
theorem C1_truncated_input_rejected_witness :
    (List.replicate 40 0 : Bytes).length < 42 ∧
    PublicKey.from_bytes (List.replicate 40 0) = none ∧
    SecretKey.from_bytes (List.replicate 40 0) = none ∧
    Signature.from_bytes (List.replicate 40 0) = none :=
  ⟨by decide, (C1_truncated_input_rejected (List.replicate 40 0)).1 (by decide),
   (C1_truncated_input_rejected (List.replicate 40 0)).2.1 (by decide),
   (C1_truncated_input_rejected (List.replicate 40 0)).2.2 (by decide)⟩

/-- C2 (counterexample): immediately after `gen_keystruct` returns, the
secret record's `chk` field has length 0 (it is `Vec::with_capacity`,
an empty vector), not the 32-byte checksum the claim requires. -/
theorem C2_counterexample_gen_chk_empty :
    (Rsign.gen_keystruct (List.replicate 32 11) (List.replicate 64 12)
        (List.replicate 8 13) (List.replicate 32 14)).map
      (fun r => r.2.keynum_sk.chk.length) = some 0 ∧ (0 : Nat) ≠ 32 :=
  ⟨by decide, by decide⟩

/-- C2 (amended): after `gen_keystruct` returns, the secret record's
`chk` field is still empty; the 32-byte checksum over the plaintext
`sig_alg`, `keynum`, `sk` is only stored by the separate `checksum()`
call.  Generation itself never emits ciphertext: `keynum` and `sk` are
stored exactly as the primitives produced them, with no XOR applied. -/
theorem C2_gen_plaintext_chk_deferred (pk sk keynum_vec salt : Bytes)
    (H : Nat → Bytes → Bytes) (p : Rsign.PubkeyStruct) (s : Rsign.SeckeyStruct)
    (hgen : Rsign.gen_keystruct pk sk keynum_vec salt = some (p, s)) :
    s.keynum_sk.chk = [] ∧
    s.keynum_sk.keynum = keynum_vec ∧ s.keynum_sk.sk = sk ∧
    (Rsign.SeckeyStruct.checksum H s).keynum_sk.chk =
      H 32 (SIGALG ++ (keynum_vec ++ sk)) := by
  have e := Rsign.gen_keystruct_some hgen
  injection e with ep es
  subst es
  refine ⟨rfl, rfl, rfl, ?_⟩
  simp [Rsign.SeckeyStruct.checksum, Rsign.generichashInit, Rsign.generichashUpdate,
    Rsign.generichashFinalize, Rsign.GENERICHASH_BYTES]

/-- C2 (witness): the amended claim at concrete entropy. -/
theorem C2_gen_plaintext_chk_deferred_witness :
    genSEx.keynum_sk.chk = [] ∧
    genSEx.keynum_sk.keynum = List.replicate 8 3 ∧
    genSEx.keynum_sk.sk = List.replicate 64 2 ∧
    (Rsign.SeckeyStruct.checksum hashEx genSEx).keynum_sk.chk =
      hashEx 32 (SIGALG ++ (List.replicate 8 3 ++ List.replicate 64 2)) :=
  C2_gen_plaintext_chk_deferred (List.replicate 32 1) (List.replicate 64 2)
    (List.replicate 8 3) (List.replicate 32 4) hashEx genPEx genSEx (by decide)

/-- C3: decode-of-encode is the identity for well-formed records of all
three types.rs record types. -/
theorem C3_roundtrip (p : PublicKey) (s : SecretKey) (g : Signature)
    (hp1 : p.sig_alg.length = 2) (hp2 : p.keynum_pk.keynum.length = 8)
    (hp3 : p.keynum_pk.pk.length = 32)
    (hs1 : s.sig_alg.length = 2) (hs2 : s.kdf_alg.length = 2)
    (hs3 : s.chk_alg.length = 2) (hs4 : s.kdf_salt.length = 32)
    (hs5 : s.kdf_opslimit_le.length = 8) (hs6 : s.kdf_memlimit_le.length = 8)
    (hs7 : s.keynum_sk.keynum.length = 8) (hs8 : s.keynum_sk.sk.length = 64)
    (hs9 : s.keynum_sk.chk.length = 32)
    (hg1 : g.sig_alg.length = 2) (hg2 : g.keynum.length = 8)
    (hg3 : g.sig.length = 64) :
    PublicKey.from_bytes p.to_bytes = some p ∧
    SecretKey.from_bytes s.to_bytes = some s ∧
    Signature.from_bytes g.to_bytes = some g :=
  ⟨pub_roundtrip p hp1 hp2 hp3,
   sec_roundtrip s hs1 hs2 hs3 hs4 hs5 hs6 hs7 hs8 hs9,
   sig_roundtrip g hg1 hg2 hg3⟩

/-- C3 (witness): round-trips at concrete records. -/
theorem C3_roundtrip_witness :
    PublicKey.from_bytes pkEx.to_bytes = some pkEx ∧
    SecretKey.from_bytes skEx.to_bytes = some skEx ∧
    Signature.from_bytes sigEx.to_bytes = some sigEx :=
  C3_roundtrip pkEx skEx sigEx rfl rfl rfl rfl rfl rfl rfl rfl rfl rfl rfl rfl
    rfl rfl rfl

/-- C4: applying `xor_keynum` twice with the same 104-byte keystream
restores the original well-formed `SecretKey`. -/
theorem C4_xor_involution (s : SecretKey) (k : Bytes)
    (h8 : s.keynum_sk.keynum.length = 8) (h64 : s.keynum_sk.sk.length = 64)
    (h32 : s.keynum_sk.chk.length = 32) (hk : k.length = 104) :
    (s.xor_keynum k).bind (fun t => t.xor_keynum k) = some s := by
  rw [SecretKey.xor_keynum_eq s k h8 h64, Option.some_bind,
    SecretKey.xor_keynum_eq _ k (by rw [xorWith_length, h8])
      (by rw [xorWith_length, h64])]
  simp only [xorWith_xorWith]

/-- C4 (witness): the involution at a concrete record and keystream. -/
theorem C4_xor_involution_witness :
    kEx104.length = 104 ∧
    (skEx.xor_keynum kEx104).bind (fun t => t.xor_keynum kEx104) = some skEx :=
  ⟨rfl, C4_xor_involution skEx kEx104 rfl rfl rfl rfl⟩

/-- C5: with a 104-byte keystream, `xor_keynum` XORs keystream bytes
0..8 into `keynum`, 8..72 into `sk`, 72..104 into `chk`, and leaves the
six clear fields (`sig_alg`, `kdf_alg`, `chk_alg`, `kdf_salt`,
`kdf_opslimit_le`, `kdf_memlimit_le`) unchanged. -/
theorem C5_xor_layout (s : SecretKey) (k : Bytes)
    (h8 : s.keynum_sk.keynum.length = 8) (h64 : s.keynum_sk.sk.length = 64)
    (h32 : s.keynum_sk.chk.length = 32) (hk : k.length = 104) :
    s.xor_keynum k = some
      { sig_alg := s.sig_alg, kdf_alg := s.kdf_alg, chk_alg := s.chk_alg,
        kdf_salt := s.kdf_salt, kdf_opslimit_le := s.kdf_opslimit_le,
        kdf_memlimit_le := s.kdf_memlimit_le,
        keynum_sk :=
          { keynum := List.zipWith (· ^^^ ·) s.keynum_sk.keynum (k.take 8),
            sk := List.zipWith (· ^^^ ·) s.keynum_sk.sk ((k.drop 8).take 64),
            chk := List.zipWith (· ^^^ ·) s.keynum_sk.chk ((k.drop 72).take 32) } } := by
  have ekn : xorWith s.keynum_sk.keynum k =
      List.zipWith (· ^^^ ·) s.keynum_sk.keynum (k.take 8) := by
    rw [xorWith_of_le _ _ (by omega), h8]
  have esk : xorWith s.keynum_sk.sk (k.drop 8) =
      List.zipWith (· ^^^ ·) s.keynum_sk.sk ((k.drop 8).take 64) := by
    rw [xorWith_of_le _ _ (by simp only [List.length_drop]; omega), h64]
  have echk : xorWith s.keynum_sk.chk (k.drop 72) =
      List.zipWith (· ^^^ ·) s.keynum_sk.chk ((k.drop 72).take 32) := by
    rw [xorWith_of_le _ _ (by simp only [List.length_drop]; omega), h32]
  rw [SecretKey.xor_keynum_eq s k h8 h64, ekn, esk, echk]

/-- C5 (witness): the layout at a concrete record and keystream. -/
theorem C5_xor_layout_witness :
    skEx.xor_keynum kEx104 = some
      { sig_alg := skEx.sig_alg, kdf_alg := skEx.kdf_alg, chk_alg := skEx.chk_alg,
        kdf_salt := skEx.kdf_salt, kdf_opslimit_le := skEx.kdf_opslimit_le,
        kdf_memlimit_le := skEx.kdf_memlimit_le,
        keynum_sk :=
          { keynum := List.zipWith (· ^^^ ·) skEx.keynum_sk.keynum (kEx104.take 8),
            sk := List.zipWith (· ^^^ ·) skEx.keynum_sk.sk ((kEx104.drop 8).take 64),
            chk := List.zipWith (· ^^^ ·) skEx.keynum_sk.chk ((kEx104.drop 72).take 32) } } :=
  C5_xor_layout skEx kEx104 rfl rfl rfl rfl

/-- C6: the checksum computation feeds, in order, the algorithm tag, the
key number and the secret key into BLAKE2b configured for a 32-byte
digest and returns exactly that digest — in both the types.rs
(`read_checksum`) and lib.rs (`checksum`) engines. -/
theorem C6_checksum_binds_identity (H : Nat → Bytes → Bytes)
    (s : SecretKey) (t : Rsign.SeckeyStruct)
    (hH : ∀ n d, (H n d).length = n)
    (h2 : s.sig_alg.length = 2) (h8 : s.keynum_sk.keynum.length = 8)
    (h64 : s.keynum_sk.sk.length = 64) :
    s.read_checksum H = H 32 (s.sig_alg ++ (s.keynum_sk.keynum ++ s.keynum_sk.sk)) ∧
    (s.read_checksum H).length = 32 ∧
    (Rsign.SeckeyStruct.checksum H t).keynum_sk.chk =
      H 32 (t.sig_alg ++ (t.keynum_sk.keynum ++ t.keynum_sk.sk)) := by
  have e1 : s.read_checksum H =
      H 32 (s.sig_alg ++ (s.keynum_sk.keynum ++ s.keynum_sk.sk)) := by
    simp [SecretKey.read_checksum, Blake2b.new, Blake2bState.update,
      Blake2bState.digest, CHK_BYTES, List.append_assoc]
  refine ⟨e1, ?_, ?_⟩
  · rw [e1]
    exact hH 32 _
  · simp [Rsign.SeckeyStruct.checksum, Rsign.generichashInit,
      Rsign.generichashUpdate, Rsign.generichashFinalize,
      Rsign.GENERICHASH_BYTES, List.append_assoc]

/-- C6 (witness): the checksum identity at concrete records and a
concrete digest family. -/
theorem C6_checksum_binds_identity_witness :
    skEx.read_checksum hashEx =
      hashEx 32 (skEx.sig_alg ++ (skEx.keynum_sk.keynum ++ skEx.keynum_sk.sk)) ∧
    (skEx.read_checksum hashEx).length = 32 ∧
    (Rsign.SeckeyStruct.checksum hashEx rsEx).keynum_sk.chk =
      hashEx 32 (rsEx.sig_alg ++ (rsEx.keynum_sk.keynum ++ rsEx.keynum_sk.sk)) :=
  C6_checksum_binds_identity hashEx skEx rsEx
    (fun n d => by simp [hashEx]) rfl rfl rfl

set_option maxRecDepth 4096 in
/-- C7 (counterexample): the claim says encoding a freshly generated
SecretKey yields 158 bytes; the record `gen_keystruct` returns (whose
`chk` is still empty) encodes to 126 bytes. -/
theorem C7_counterexample_fresh_encoding_126 :
    (Rsign.gen_keystruct (List.replicate 32 21) (List.replicate 64 22)
        (List.replicate 8 23) (List.replicate 32 24)).map
      (fun r => r.2.bytes.length) = some 126 ∧ (126 : Nat) ≠ 158 :=
  ⟨by decide, by decide⟩

/-- C7 (amended): encode output length is exactly 42 / 158 / 74 bytes
for every well-formed PublicKey / SecretKey / Signature, and a lib.rs
`SeckeyStruct` whose fields have their fixed lengths (in particular any
record after `checksum()` wrote the 32-byte digest) encodes to 158
bytes, before and after encryption; but the freshly generated record,
whose `chk` is still empty, encodes to 126 bytes. -/
theorem C7_encode_lengths (p : PublicKey) (s : SecretKey) (g : Signature)
    (t : Rsign.SeckeyStruct) (stream : Bytes)
    (hp1 : p.sig_alg.length = 2) (hp2 : p.keynum_pk.keynum.length = 8)
    (hp3 : p.keynum_pk.pk.length = 32)
    (hs1 : s.sig_alg.length = 2) (hs2 : s.kdf_alg.length = 2)
    (hs3 : s.chk_alg.length = 2) (hs4 : s.kdf_salt.length = 32)
    (hs5 : s.kdf_opslimit_le.length = 8) (hs6 : s.kdf_memlimit_le.length = 8)
    (hs7 : s.keynum_sk.keynum.length = 8) (hs8 : s.keynum_sk.sk.length = 64)
    (hs9 : s.keynum_sk.chk.length = 32)
    (hg1 : g.sig_alg.length = 2) (hg2 : g.keynum.length = 8)
    (hg3 : g.sig.length = 64)
    (ht1 : t.sig_alg.length = 2) (ht2 : t.kdf_alg.length = 2)
    (ht3 : t.chk_alg.length = 2) (ht4 : t.kdf_salt.length = 32)
    (ht5 : t.keynum_sk.keynum.length = 8) (ht6 : t.keynum_sk.sk.length = 64)
    (ht7 : t.keynum_sk.chk.length = 32) :
    p.to_bytes.length = 42 ∧ s.to_bytes.length = 158 ∧
    g.to_bytes.length = 74 ∧ t.bytes.length = 158 ∧
    (t.xor_keynum stream).map (fun x => x.1.bytes.length) = some 158 := by
  refine ⟨?_, ?_, ?_, ?_, ?_⟩
  · simp [PublicKey.to_bytes, hp1, hp2, hp3]
  · simp [SecretKey.to_bytes, hs1, hs2, hs3, hs4, hs5, hs6, hs7, hs8, hs9]
  · simp [Signature.to_bytes, hg1, hg2, hg3]
  · simp [Rsign.SeckeyStruct.bytes, store_usize_le_length, ht1, ht2, ht3, ht4,
      ht5, ht6, ht7]
  · rw [Rsign.SeckeyStruct.xor_keynum_norm]
    simp [Rsign.SeckeyStruct.bytes, store_usize_le_length, xorWith_length,
      ht1, ht2, ht3, ht4, ht5, ht6, ht7]

/-- C7 (witness): the amended lengths at concrete records. -/
theorem C7_encode_lengths_witness :
    pkEx.to_bytes.length = 42 ∧ skEx.to_bytes.length = 158 ∧
    sigEx.to_bytes.length = 74 ∧ rsEx.bytes.length = 158 ∧
    (rsEx.xor_keynum kEx104).map (fun x => x.1.bytes.length) = some 158 :=
  C7_encode_lengths pkEx skEx sigEx rsEx kEx104 rfl rfl rfl rfl rfl rfl rfl rfl
    rfl rfl rfl rfl rfl rfl rfl rfl rfl rfl rfl rfl rfl rfl

/-- C8: the public and secret records assembled by `gen_keystruct` carry
the same 8-byte `keynum`. -/
theorem C8_keynum_shared (pk sk keynum_vec salt : Bytes)
    (p : Rsign.PubkeyStruct) (s : Rsign.SeckeyStruct)
    (hgen : Rsign.gen_keystruct pk sk keynum_vec salt = some (p, s)) :
    p.keynum_pk.keynum = s.keynum_sk.keynum := by
  have e := Rsign.gen_keystruct_some hgen
  injection e with ep es
  subst ep
  subst es
  rfl

/-- C8 (witness): keynum agreement at concrete entropy. -/
theorem C8_keynum_shared_witness :
    genPEx.keynum_pk.keynum = genSEx.keynum_sk.keynum :=
  C8_keynum_shared (List.replicate 32 1) (List.replicate 64 2)
    (List.replicate 8 3) (List.replicate 32 4) genPEx genSEx (by decide)

/-- C9: the lib.rs `xor_keynum` completes on every input (no panicking
exit path) and the keystream buffer it owns holds only zero bytes at the
point its storage is released. -/
theorem C9_keystream_zeroized (s : Rsign.SeckeyStruct) (stream : Bytes) :
    (s.xor_keynum stream).map Prod.snd = some (List.replicate stream.length 0) := by
  rw [Rsign.SeckeyStruct.xor_keynum_norm]
  rfl

/-- C10: for a well-formed record and a keystream of any length L,
`xor_keynum` never panics or reads out of bounds: it XORs `keynum`
against stream bytes 0..min(8,L), `sk` against the following
min(64,L-8), `chk` against the following min(32,L-72) (`List.zipWith`
truncates at the shorter list), and the remaining suffix of each field
is kept unchanged. -/
theorem C10_xor_any_stream_total (s : SecretKey) (stream : Bytes)
    (h8 : s.keynum_sk.keynum.length = 8) (h64 : s.keynum_sk.sk.length = 64)
    (h32 : s.keynum_sk.chk.length = 32) :
    s.xor_keynum stream = some
      { s with keynum_sk :=
        { keynum := List.zipWith (· ^^^ ·) s.keynum_sk.keynum stream ++
            s.keynum_sk.keynum.drop stream.length,
          sk := List.zipWith (· ^^^ ·) s.keynum_sk.sk (stream.drop 8) ++
            s.keynum_sk.sk.drop (stream.length - 8),
          chk := List.zipWith (· ^^^ ·) s.keynum_sk.chk (stream.drop 72) ++
            s.keynum_sk.chk.drop (stream.length - 72) } } := by
  rw [SecretKey.xor_keynum_eq s stream h8 h64]
  simp only [xorWith, List.length_drop]

/-- C10 (witness): a 5-byte keystream leaves the suffix of `keynum` and
all of `sk`, `chk` unmasked, without failing. -/
theorem C10_xor_any_stream_total_witness :
    skEx.xor_keynum kEx5 = some
      { skEx with keynum_sk :=
        { keynum := List.zipWith (· ^^^ ·) skEx.keynum_sk.keynum kEx5 ++
            skEx.keynum_sk.keynum.drop kEx5.length,
          sk := List.zipWith (· ^^^ ·) skEx.keynum_sk.sk (kEx5.drop 8) ++
            skEx.keynum_sk.sk.drop (kEx5.length - 8),
          chk := List.zipWith (· ^^^ ·) skEx.keynum_sk.chk (kEx5.drop 72) ++
            skEx.keynum_sk.chk.drop (kEx5.length - 72) } } :=
  C10_xor_any_stream_total skEx kEx5 rfl rfl rfl

end Torgap
